import Mathlib

/-!
# Verification of the golden/replay contract engine

A shallow embedding, in Lean 4, of the deterministic golden-run / replay /
policy-harness core of the repository:

* `contract/v1/harness/run_harness.py` — the policy authorization and audit
  state machine (`lane_authorized`, `tool_allowed`, terminal events);
* `contract/v1/golden/run_golden.py` and
  `contract/v1/golden/pin_golden_hashes.py` — run-id derivation and the
  golden hash-comparison step;
* `contract/v1/golden/lib/canonical.py` — canonical JSON serialization,
  manifest read/write, and the file-set diff;
* `contract/v1/harness/run_replay.py` — the replay equivalence checker.

Python dictionaries are embedded as association lists with unique keys
(Python dicts preserve insertion order; lookups are modelled by the first
matching key).  Python's `hashlib.sha256` is standard-library code, external
to the repository, so it is modelled by universally quantifying over the hex
digest function; everything the repository itself computes (payload bytes,
string joins, comparisons, orderings) is embedded concretely and executably.
-/

/-- Python `dict` lookup `m.get(k)` over an association list (keys unique in
all uses; first match is taken, exactly as a dict would store one binding). -/
def dictFind {α : Type} (m : List (String × α)) (k : String) : Option α :=
  (m.find? (fun p => p.1 == k)).map (fun p => p.2)

/-- Python `k in m` membership test for a dict. -/
def dictContains {α : Type} (m : List (String × α)) (k : String) : Bool :=
  (dictFind m k).isSome

/-- Python `m.get(k, d)` lookup with a default. -/
def dictGetD {α : Type} (m : List (String × α)) (k : String) (d : α) : α :=
  (dictFind m k).getD d

/-- Python string comparison: code-point lexicographic order, i.e. the
lexicographic order on the character lists.  (Stated on `.data` because the
ambient `String` order goes through an iterator loop that concrete
computation cannot unfold.) -/
def strLe (a b : String) : Prop := a.data ≤ b.data

instance : DecidableRel strLe :=
  fun a b => inferInstanceAs (Decidable (a.data ≤ b.data))

/-- Python `str.lower()`, character by character.  (`Char.toLower` agrees
with Python on ASCII, which covers every hex digest compared here.) -/
def pyLower (s : String) : String := ⟨s.data.map Char.toLower⟩

/-! ## Policy authorization state machine (`run_harness.py`) -/

/-- One entry of the tool registry, as produced by `extract_tool_registry`:
both fields are initialised to `None` and filled in only if the
corresponding line is present in the registry file. -/
structure ToolInfo where
  enabled : Option Bool
  implementation_status : Option String
deriving DecidableEq

/-- The three capability tables read by the harness (`run_harness.py` main):
`roles` from `extract_roles`, `lanes_allowed` from
`extract_lanes_allowed_roles`, `lane_tools` from `extract_lane_tools`,
`tool_registry` from `extract_tool_registry`. -/
structure Policy where
  roles : List String
  lanes_allowed : List (String × List String)
  lane_tools : List (String × List String)
  tool_registry : List (String × ToolInfo)

/-- The request fields the decision logic reads (`agent_role`, `lane_id`,
`tool_name` from the request JSON). -/
structure Request where
  agent_role : String
  lane_id : String
  tool_name : String

/-- Step 2 of `run_harness.main` (`lane_authorized`): returns
`(lane_ok, lane_reason)` following the `if role_id not in roles ... elif
lane_id not in lanes_allowed ... elif role_id not in
lanes_allowed.get(lane_id, []) ...` chain. -/
def lane_authorized (roles : List String) (lanes_allowed : List (String × List String))
    (role_id lane_id : String) : Bool × Option String :=
  if role_id ∉ roles then
    (false, some "role_not_defined")
  else if ¬ dictContains lanes_allowed lane_id then
    (false, some "lane_not_defined")
  else if role_id ∉ dictGetD lanes_allowed lane_id [] then
    (false, some "role_not_allowed_for_lane")
  else
    (true, none)

/-- Step 4 of `run_harness.main` (`tool_allowed`): returns
`(allowed, deny_reason)` following the source's `if not lane_ok ... elif
tool_name not in tool_registry ... elif tool_name not in
lane_tools.get(lane_id, []) ... else: if enabled is False ... elif impl !=
"implemented"` chain.  Note the source tests `enabled is False`, so an
absent `enabled` field (`None`) does not trip the `tool_disabled` branch. -/
def tool_allowed (lane_ok : Bool) (tool_registry : List (String × ToolInfo))
    (lane_tools : List (String × List String)) (lane_id tool_name : String) :
    Bool × Option String :=
  if ¬ lane_ok then
    (false, some "lane_not_authorized")
  else if ¬ dictContains tool_registry tool_name then
    (false, some "tool_not_registered")
  else if tool_name ∉ dictGetD lane_tools lane_id [] then
    (false, some "tool_not_allowed_in_lane")
  else
    let info := dictGetD tool_registry tool_name ⟨none, none⟩
    if info.enabled = some false then
      (false, some "tool_disabled")
    else if info.implementation_status ≠ some "implemented" then
      (false, some "tool_not_implemented")
    else
      (true, none)

/-- The audit-event fields the claims inspect: `action_type`, `outcome`,
`outcome_reason_bounded`, `error_code` (the remaining fields of
`audit_event` — ids, hashes, timestamps — do not affect the claims). -/
structure Event where
  action_type : String
  outcome : String
  outcome_reason : Option String
  error_code : Option String
deriving DecidableEq

/-- The event sequence and terminal run-record status produced by
`run_harness.main` for one request: events 1–6 (`run_created`,
`lane_authorized`, `tool_requested`, `tool_allowed`, then `tool_denied` or
`tool_executed`, then `run_completed`), plus the final
`run_record["status"]`. -/
def harness_events (p : Policy) (req : Request) : List Event × String :=
  let la := lane_authorized p.roles p.lanes_allowed req.agent_role req.lane_id
  let ta := tool_allowed la.1 p.tool_registry p.lane_tools req.lane_id req.tool_name
  let ev1 : Event := ⟨"run_created", "success", none, none⟩
  let ev2 : Event := ⟨"lane_authorized", if la.1 then "success" else "denied", la.2, none⟩
  let ev3 : Event := ⟨"tool_requested", "success", none, none⟩
  let ev4 : Event := ⟨"tool_allowed", if ta.1 then "success" else "denied", ta.2, none⟩
  if ¬ ta.1 then
    ([ev1, ev2, ev3, ev4,
      ⟨"tool_denied", "denied", ta.2, some "TOOL_DENIED"⟩,
      ⟨"run_completed", "success", some "completed", none⟩], "completed")
  else
    ([ev1, ev2, ev3, ev4,
      ⟨"tool_executed", "failed", some "harness_no_execution", some "TOOL_NOT_IMPLEMENTED"⟩,
      ⟨"run_completed", "failed", some "failed", none⟩], "failed")

/-! ## Run-id derivation (`run_golden.py` / `pin_golden_hashes.py`) -/

/-- UTF-8 encoding of a string, as a list of byte values. -/
def utf8Bytes (s : String) : List Nat :=
  s.toUTF8.toList.map (fun b => b.toNat)

namespace RunGolden

/-- `RUNNER_VERSION` constant of `run_golden.py`. -/
def RUNNER_VERSION : String := "v1.0.0"

/-- `compute_run_id` of `run_golden.py`:
`sha256(f"{contract_manifest_sha}\n{fixtures_manifest_sha}\n{RUNNER_VERSION}\n{seed}".encode("utf-8")).hexdigest()`.
`hashlib.sha256(...).hexdigest()` is Python standard library, so the hex
digest function over the payload bytes is passed in as a parameter. -/
def compute_run_id (sha256hex : List Nat → String)
    (contract_manifest_sha fixtures_manifest_sha seed : String) : String :=
  sha256hex (utf8Bytes
    (contract_manifest_sha ++ "\n" ++ fixtures_manifest_sha ++ "\n" ++
      RUNNER_VERSION ++ "\n" ++ seed))

end RunGolden

namespace PinGolden

/-- `RUNNER_VERSION` constant of `pin_golden_hashes.py`. -/
def RUNNER_VERSION : String := "v1.0.0"

/-- `compute_run_id` of `pin_golden_hashes.py`:
`hashlib.sha256(f"{contract_sha}\n{fixtures_sha}\n{RUNNER_VERSION}\n{seed}".encode("utf-8")).hexdigest()`. -/
def compute_run_id (sha256hex : List Nat → String)
    (contract_sha fixtures_sha seed : String) : String :=
  sha256hex (utf8Bytes
    (contract_sha ++ "\n" ++ fixtures_sha ++ "\n" ++ RUNNER_VERSION ++ "\n" ++ seed))

end PinGolden

/-! ## Golden comparison step (`run_golden.py` main, compare phase) -/

/-- The per-file hash comparison of `run_golden.main`:
`for rel, exp_hash in expected.items(): actual_hash = sha256_file(out_dir / rel);
if actual_hash.lower() != exp_hash.lower(): raise RuntimeError(...)`.
`expected` is the expected-manifest association list in document order;
`actualHash rel` stands for `sha256_file(out_dir / rel)` (the file-set check
has already ensured every expected file exists).  The raised error carries
the single offending file with its expected and actual hashes, exactly as
the f-string `"Golden mismatch: {rel} expected {exp_hash} got {actual_hash}"`
does. -/
def golden_hash_compare (expected : List (String × String))
    (actualHash : String → String) : Except (String × String × String) Unit :=
  match expected with
  | [] => .ok ()
  | (rel, expHash) :: rest =>
    if pyLower (actualHash rel) ≠ pyLower expHash then
      .error (rel, expHash, actualHash rel)
    else
      golden_hash_compare rest actualHash

/-- The complete set of offending files: every expected entry whose actual
digest differs case-insensitively from the expected digest, in manifest
order. -/
def golden_mismatch_files (expected : List (String × String))
    (actualHash : String → String) : List String :=
  (expected.filter (fun p => pyLower (actualHash p.1) ≠ pyLower p.2)).map (fun p => p.1)

/-! ## File-set diff (`canonical.py`, `assert_no_extra_or_missing_files`) -/

/-- The error raised by `assert_no_extra_or_missing_files`: either
`RuntimeError(f"Missing output files: ...")` listing the missing files, or
`RuntimeError(f"Unexpected extra output files: ...")` listing the extra
files. -/
inductive FileSetError where
  | missingFiles (files : List String)
  | extraFiles (files : List String)
deriving DecidableEq

/-- The `{missing, extra}` pair computed by `assert_no_extra_or_missing_files`:
`actual_files` is the sorted recursive listing of regular files under
`out_dir` (paths `/`-normalized), `expected_files = sorted(expected.keys())`,
`missing = [f for f in expected_files if f not in actual_files]`,
`extra = [f for f in actual_files if f not in expected_files]`. -/
def fileset_diff (expected : List (String × String)) (out_files : List String) :
    List String × List String :=
  let actual_files := out_files.insertionSort strLe
  let expected_files := (expected.map (fun p => p.1)).insertionSort strLe
  (expected_files.filter (fun f => f ∉ actual_files),
   actual_files.filter (fun f => f ∉ expected_files))

/-- `assert_no_extra_or_missing_files` itself: raises on a non-empty
`missing` first, then on a non-empty `extra`, else returns normally. -/
def assert_no_extra_or_missing_files (expected : List (String × String))
    (out_files : List String) : Except FileSetError Unit :=
  let d := fileset_diff expected out_files
  if d.1 ≠ [] then .error (.missingFiles d.1)
  else if d.2 ≠ [] then .error (.extraFiles d.2)
  else .ok ()

/-! ## Canonical JSON encoding (`canonical.py`) -/

/-- One hex digit character, as used by the `\u00XX` escapes. -/
def escHex (n : Nat) : Char :=
  Nat.digitChar (n % 16)

/-- How `json.dumps` (with `ensure_ascii=False`) escapes one character of a
string: `"` and `\` get a backslash, the five short control escapes are
used, every other control character below 0x20 becomes `\u00XX`, and all
remaining characters are emitted raw. -/
def jsonEscapeChar (c : Char) : List Char :=
  if c = '"' then ['\\', '"']
  else if c = '\\' then ['\\', '\\']
  else if c = '\n' then ['\\', 'n']
  else if c = '\r' then ['\\', 'r']
  else if c = '\t' then ['\\', 't']
  else if c.toNat = 8 then ['\\', 'b']
  else if c.toNat = 12 then ['\\', 'f']
  else if c.toNat < 32 then
    '\\' :: 'u' :: '0' :: '0' :: escHex (c.toNat / 16) :: escHex (c.toNat % 16) :: []
  else [c]

/-- The JSON encoding of a string literal (quote, escaped characters,
quote). -/
def jsonQuote (s : String) : String :=
  ⟨'"' :: s.data.foldr (fun c acc => jsonEscapeChar c ++ acc) ['"']⟩

/-- `sorted(mapping.keys())`: Python's `sorted` on strings, i.e. a sort by
code-point lexicographic order (keys are unique, so stability is
irrelevant). -/
def sortedKeys (m : List (String × String)) : List String :=
  (m.map (fun p => p.1)).insertionSort strLe

/-- The ordered dict built by `write_manifest_json`:
`{k: mapping[k] for k in sorted(mapping.keys())}`. -/
def write_manifest_ordered (m : List (String × String)) : List (String × String) :=
  (sortedKeys m).filterMap (fun k => (dictFind m k).map (fun v => (k, v)))

/-- `canonical_json_bytes` restricted to a flat string-to-string object, the
only document shape manifests use:
`json.dumps(obj, sort_keys=True, ensure_ascii=False, separators=(",", ":"), indent=2) + "\n"`.
With `indent=2` the items sit one per line indented two spaces, the item
separator `","` ends each line, the key separator is `":"` with no space,
and the empty object prints as `{}`. -/
def canonicalManifestString (items : List (String × String)) : String :=
  match items with
  | [] => "{}\n"
  | _ =>
    "\x7b\n" ++
      String.intercalate ",\n"
        (items.map (fun p => "  " ++ jsonQuote p.1 ++ ":" ++ jsonQuote p.2)) ++
      "\n\x7d" ++ "\n"

/-- The bytes `write_manifest_json` writes for a mapping (the ordered dict
serialized through `canonical_json_bytes`; `sort_keys=True` is a no-op on an
already key-sorted dict). -/
def write_manifest_bytes (m : List (String × String)) : String :=
  canonicalManifestString (write_manifest_ordered m)

/-- `read_manifest_json` applied to the parsed value of a manifest file (a
flat string-to-string JSON object in document order; `json.loads` of the
canonical bytes recovers exactly the ordered object that was serialized, a
property of the Python standard library).  The typed model makes the
`isinstance` validation vacuous; the function lowercases every value and
preserves document order. -/
def read_manifest (fileObj : List (String × String)) : List (String × String) :=
  fileObj.map (fun p => (p.1, pyLower p.2))

/-! ## Replay equivalence checker (`run_replay.py`) -/

/-- The fingerprint document computed by `compute_outputs` (and stored in a
`*.expected.json` file): `schema_version`, `vector_id`, the sorted
`fingerprints` map and the sorted `missing_artifacts` list. -/
structure ReplayOutputs where
  schema_version : String
  vector_id : String
  fingerprints : List (String × String)
  missing_artifacts : List String
deriving DecidableEq

/-- Python `dict == dict` on flat string-to-string maps: equality as finite
maps, i.e. equality of the key-sorted association lists (keys are unique in
every dict). -/
def dictEqb (a b : List (String × String)) : Bool :=
  a.insertionSort (fun p q => strLe p.1 q.1) == b.insertionSort (fun p q => strLe p.1 q.1)

/-- `diff_expected` of `run_replay.py`: the four `cmp` calls, in source
order (`schema_version`, `vector_id`, `missing_artifacts`, `fingerprints`);
each mismatching field contributes one diff entry, here recorded by field
name (the source formats it as `"Mismatch at '<key>': computed != expected"`). -/
def diff_expected (computed expected : ReplayOutputs) : List String :=
  (if computed.schema_version ≠ expected.schema_version then ["schema_version"] else []) ++
  (if computed.vector_id ≠ expected.vector_id then ["vector_id"] else []) ++
  (if computed.missing_artifacts ≠ expected.missing_artifacts then ["missing_artifacts"] else []) ++
  (if ¬ dictEqb computed.fingerprints expected.fingerprints then ["fingerprints"] else [])

/-- The per-vector failure reasons appended to `failures` in
`run_replay.main`, by branch: the strict-missing escalation
(`"Missing artifacts: ..."`), the absent expected file
(`"Expected file missing: ..."`), or the list of diffs from
`diff_expected`. -/
inductive VectorFailure where
  | missingArtifacts (missing : List String)
  | expectedFileMissing
  | diffs (fields : List String)
deriving DecidableEq

/-- What one iteration of the vector loop in `run_replay.main` does with a
vector: record a failure, write the expected file (freeze), or pass. -/
inductive VectorOutcome where
  | failed (f : VectorFailure)
  | froze (written : ReplayOutputs)
  | passed
deriving DecidableEq

/-- One discovered vector, as the loop body sees it: its file name, the
fingerprint document `compute_outputs` returned for it, and the parsed
content of its paired expected file (`none` when `exp_path` does not
exist). -/
structure VectorCase where
  name : String
  computed : ReplayOutputs
  expected : Option ReplayOutputs
deriving DecidableEq

/-- The body of the `for vpath in vectors` loop of `run_replay.main`, in
source order: the `strict_missing` escalation first, then the `freeze`
write, then the missing-expected-file failure, then `diff_expected`. -/
def process_vector (freeze strict_missing : Bool) (v : VectorCase) : VectorOutcome :=
  if strict_missing ∧ v.computed.missing_artifacts ≠ [] then
    .failed (.missingArtifacts v.computed.missing_artifacts)
  else if freeze then
    .froze v.computed
  else
    match v.expected with
    | none => .failed .expectedFileMissing
    | some e =>
      let diffs := diff_expected v.computed e
      if diffs ≠ [] then .failed (.diffs diffs) else .passed

/-- The `failures` list accumulated by the loop: every vector is processed;
a failing vector appends `(vpath.name, diffs)` and the loop continues. -/
def replay_failures (freeze strict_missing : Bool) :
    List VectorCase → List (String × VectorFailure)
  | [] => []
  | v :: rest =>
    match process_vector freeze strict_missing v with
    | .failed f => (v.name, f) :: replay_failures freeze strict_missing rest
    | _ => replay_failures freeze strict_missing rest

/-- The exit status of `run_replay.main` after vector discovery (the
filesystem checks that return 2 are outside the model): `3` when no vectors
were found, `10` when `failures` is non-empty, `0` otherwise. -/
def replay_exit (freeze strict_missing : Bool) (vectors : List VectorCase) : Nat :=
  if vectors = [] then 3
  else if replay_failures freeze strict_missing vectors ≠ [] then 10
  else 0

/-! ## Canonical line-delimited form (`canonical.py`, `canonical_jsonl_bytes`)

JSON documents are embedded with integer numerals (no fixture in the golden
pipeline needs non-integral numbers, and the claims under study are
independent of the numeric subtype). -/

/-- A JSON document. -/
inductive Json where
  | null : Json
  | boolean : Bool → Json
  | num : Int → Json
  | str : String → Json
  | arr : List Json → Json
  | obj : List (String × Json) → Json

/-- Decimal digits of a natural number, most significant first (the digits
Python's `repr` of a non-negative `int` prints). -/
def natDigits (n : Nat) : List Char :=
  if _h : n < 10 then [Nat.digitChar n]
  else natDigits (n / 10) ++ [Nat.digitChar (n % 10)]
decreasing_by exact Nat.div_lt_self (by omega) (by omega)

/-- Python `repr` of an `int`: an optional minus sign and decimal digits. -/
def intRepr (n : Int) : String :=
  if n < 0 then "-" ++ String.mk (natDigits (-n).toNat)
  else String.mk (natDigits n.toNat)

/-- `json.dumps(..., sort_keys=True)` sorts the items of every object by
key (keys are unique within a JSON object, so stability is irrelevant). -/
def sortPairs (kvs : List (String × Json)) : List (String × Json) :=
  kvs.insertionSort (fun p q => strLe p.1 q.1)

theorem perm_sizeOf_eq {α : Type} [SizeOf α] {l₁ l₂ : List α}
    (h : l₁.Perm l₂) : sizeOf l₁ = sizeOf l₂ := by
  induction h with
  | nil => rfl
  | cons x _ ih => simp [ih]
  | swap x y l => simp; omega
  | trans _ _ ih₁ ih₂ => exact ih₁.trans ih₂

@[simp] theorem sizeOf_sortPairs (kvs : List (String × Json)) :
    sizeOf (sortPairs kvs) = sizeOf kvs :=
  perm_sizeOf_eq (List.perm_insertionSort _ kvs)

mutual

/-- One compact canonical encoding, mirroring
`json.dumps(obj, sort_keys=True, ensure_ascii=False, separators=(",", ":"))`:
no whitespace, keys sorted at every level, `","` between items, `":"`
between key and value. -/
def serializeJson : Json → String
  | .null => "null"
  | .boolean true => "true"
  | .boolean false => "false"
  | .num n => intRepr n
  | .str s => jsonQuote s
  | .arr xs => "[" ++ serializeArr xs ++ "]"
  | .obj kvs => "\x7b" ++ serializePairs (sortPairs kvs) ++ "\x7d"
termination_by j => sizeOf j

/-- The comma-joined encodings of the elements of an array. -/
def serializeArr : List Json → String
  | [] => ""
  | [x] => serializeJson x
  | x :: y :: xs => serializeJson x ++ "," ++ serializeArr (y :: xs)
termination_by l => sizeOf l

/-- The comma-joined `"key":value` encodings of the (sorted) items of an
object. -/
def serializePairs : List (String × Json) → String
  | [] => ""
  | [(k, v)] => jsonQuote k ++ ":" ++ serializeJson v
  | (k, v) :: q :: ps => jsonQuote k ++ ":" ++ serializeJson v ++ "," ++ serializePairs (q :: ps)
termination_by l => sizeOf l

end

/-- Python `"\n".join(lines)`. -/
def joinNL : List String → String
  | [] => ""
  | [x] => x
  | x :: y :: xs => x ++ "\n" ++ joinNL (y :: xs)

/-- `canonical_jsonl_bytes`: one compact canonical encoding per input
element, joined by single newlines, plus one trailing newline
(`"\n".join(lines) + "\n"`), as a UTF-8 string. -/
def canonical_jsonl_string (objs : List Json) : String :=
  joinNL (objs.map serializeJson) ++ "\n"

/-- `list(cap_mock.get("tool_calls", []))` in `run_golden.main`: the list of
tool calls of the capability-gateway fixture; an absent `tool_calls` key
yields the empty list.  (`none` covers the shapes on which the Python
expression would not produce a list of documents.) -/
def tool_calls_of_fixture (cap_mock : Json) : Option (List Json) :=
  match cap_mock with
  | .obj kvs =>
    match dictFind kvs "tool_calls" with
    | none => some []
    | some (.arr xs) => some xs
    | some _ => none
  | _ => none

/-- The bytes `run_golden.main` writes to `tool_calls.jsonl`
(`write_canonical_jsonl(out_dir / "tool_calls.jsonl", tool_calls)`). -/
def tool_calls_jsonl (cap_mock : Json) : Option String :=
  (tool_calls_of_fixture cap_mock).map canonical_jsonl_string

/-! # Theorems for the claims -/

/-- **C5**.  Run ID derivation is a pure function of the tuple
(contract hash, fixtures hash, runner version `"v1.0.0"`, seed): for any hex
digest function it equals that function applied to the UTF-8 bytes of the
newline-joined tuple, and the two independent implementations
(`run_golden.compute_run_id` and `pin_golden_hashes.compute_run_id`) are
extensionally equal. -/
theorem C5_run_id_pure_and_equivalent :
    ∀ (sha256hex : List Nat → String) (contractHash fixturesHash seed : String),
      RunGolden.compute_run_id sha256hex contractHash fixturesHash seed =
        sha256hex (utf8Bytes
          (contractHash ++ "\n" ++ fixturesHash ++ "\n" ++ "v1.0.0" ++ "\n" ++ seed)) ∧
      RunGolden.compute_run_id sha256hex contractHash fixturesHash seed =
        PinGolden.compute_run_id sha256hex contractHash fixturesHash seed := by
  intro sha c f s
  exact ⟨rfl, rfl⟩

/-- **C3**.  `lane_authorized` succeeds iff the role is known, the lane is
known, and the role is in the lane's allowed-role set; otherwise it is
denied with exactly one reason chosen by precedence `role_not_defined`,
then `lane_not_defined`, then `role_not_allowed_for_lane`.  In particular an
unknown role yields `role_not_defined` for every lane, known or not. -/
theorem C3_lane_authorized_characterization :
    ∀ (roles : List String) (lanes_allowed : List (String × List String))
      (role lane : String),
      (lane_authorized roles lanes_allowed role lane = (true, none) ↔
        role ∈ roles ∧ ∃ rs, dictFind lanes_allowed lane = some rs ∧ role ∈ rs) ∧
      (role ∉ roles →
        lane_authorized roles lanes_allowed role lane = (false, some "role_not_defined")) ∧
      (role ∈ roles → dictFind lanes_allowed lane = none →
        lane_authorized roles lanes_allowed role lane = (false, some "lane_not_defined")) ∧
      (∀ rs, role ∈ roles → dictFind lanes_allowed lane = some rs → role ∉ rs →
        lane_authorized roles lanes_allowed role lane =
          (false, some "role_not_allowed_for_lane")) := by
  intro roles lanes role lane
  by_cases hrole : role ∈ roles
  · rcases hfind : dictFind lanes lane with _ | rs
    · simp [lane_authorized, dictContains, dictGetD, hfind, hrole]
    · by_cases hmem : role ∈ rs
      · simp [lane_authorized, dictContains, dictGetD, hfind, hrole, hmem]
      · simp [lane_authorized, dictContains, dictGetD, hfind, hrole, hmem]
  · simp [lane_authorized, hrole]

/-- Witness for C3 at a concrete input: role `"ghost"` is unknown while lane
`"LANE_DRAFT"` is known, and the denial reason is exactly
`role_not_defined`. -/
theorem C3_witness :
    lane_authorized ["drafting_agent"] [("LANE_DRAFT", ["drafting_agent"])]
      "ghost" "LANE_DRAFT" = (false, some "role_not_defined") :=
  (C3_lane_authorized_characterization ["drafting_agent"]
    [("LANE_DRAFT", ["drafting_agent"])] "ghost" "LANE_DRAFT").2.1 (by decide)

/-- **C4**.  Terminal status asymmetry: when the request is denied at
`tool_allowed`, the fifth event is `tool_denied` with outcome `denied` and
the run record finishes `completed`; when it is allowed, the fifth event is
`tool_executed` with outcome `failed` and error code `TOOL_NOT_IMPLEMENTED`
(no execution capability) and the run record finishes `failed`. -/
theorem C4_terminal_status_asymmetry :
    ∀ (p : Policy) (req : Request),
      ((tool_allowed (lane_authorized p.roles p.lanes_allowed req.agent_role req.lane_id).1
          p.tool_registry p.lane_tools req.lane_id req.tool_name).1 = false →
        (harness_events p req).1.get? 4 = some
          ⟨"tool_denied", "denied",
            (tool_allowed (lane_authorized p.roles p.lanes_allowed req.agent_role req.lane_id).1
              p.tool_registry p.lane_tools req.lane_id req.tool_name).2,
            some "TOOL_DENIED"⟩ ∧
        (harness_events p req).2 = "completed") ∧
      ((tool_allowed (lane_authorized p.roles p.lanes_allowed req.agent_role req.lane_id).1
          p.tool_registry p.lane_tools req.lane_id req.tool_name).1 = true →
        (harness_events p req).1.get? 4 = some
          ⟨"tool_executed", "failed", some "harness_no_execution",
            some "TOOL_NOT_IMPLEMENTED"⟩ ∧
        (harness_events p req).2 = "failed") := by
  intro p req
  constructor
  · intro h
    simp [harness_events, h]
  · intro h
    simp [harness_events, h]

/-- Witness for C4 at concrete inputs: two otherwise-identical requests, one
with the tool disabled (denied → `completed`) and one with the tool enabled
and implemented (allowed → `tool_executed`/`failed`). -/
theorem C4_witness :
    ((harness_events
        ⟨["drafting_agent"], [("LANE_DRAFT", ["drafting_agent"])],
         [("LANE_DRAFT", ["summarize"])],
         [("summarize", ⟨some false, some "implemented"⟩)]⟩
        ⟨"drafting_agent", "LANE_DRAFT", "summarize"⟩).2 = "completed") ∧
    ((harness_events
        ⟨["drafting_agent"], [("LANE_DRAFT", ["drafting_agent"])],
         [("LANE_DRAFT", ["summarize"])],
         [("summarize", ⟨some true, some "implemented"⟩)]⟩
        ⟨"drafting_agent", "LANE_DRAFT", "summarize"⟩).2 = "failed") :=
  ⟨((C4_terminal_status_asymmetry
      ⟨["drafting_agent"], [("LANE_DRAFT", ["drafting_agent"])],
       [("LANE_DRAFT", ["summarize"])],
       [("summarize", ⟨some false, some "implemented"⟩)]⟩
      ⟨"drafting_agent", "LANE_DRAFT", "summarize"⟩).1 (by decide)).2,
   ((C4_terminal_status_asymmetry
      ⟨["drafting_agent"], [("LANE_DRAFT", ["drafting_agent"])],
       [("LANE_DRAFT", ["summarize"])],
       [("summarize", ⟨some true, some "implemented"⟩)]⟩
      ⟨"drafting_agent", "LANE_DRAFT", "summarize"⟩).2 (by decide)).2⟩

/-- **C2, counterexample**.  The claim requires that a registered,
lane-allowed tool whose `enabled` field is absent must not pass the
"tool is enabled" condition.  In the code the check is `enabled is False`,
so with `enabled = None` (absent) and `implementation_status =
"implemented"` the step nevertheless succeeds: `tool_allowed` returns
`(success, no reason)` even though the registry entry's `enabled` is
`none`. -/
theorem C2_counterexample :
    tool_allowed true [("summarize", ⟨none, some "implemented"⟩)]
        [("LANE_DRAFT", ["summarize"])] "LANE_DRAFT" "summarize" = (true, none) ∧
    dictFind [("summarize", (⟨none, some "implemented"⟩ : ToolInfo))] "summarize" =
      some ⟨none, some "implemented"⟩ := by
  constructor
  · rfl
  · rfl

/-- **C2, amended**.  `tool_allowed` succeeds iff lane authorization
succeeded AND the tool is registered AND the tool is in the lane's
allowed-tool list AND the tool is *not explicitly disabled* (`enabled` is
not the literal `False`; an absent `enabled` field passes this check) AND
its implementation status equals `implemented`; otherwise it is denied with
exactly one reason by first-match precedence `lane_not_authorized`,
`tool_not_registered`, `tool_not_allowed_in_lane`, `tool_disabled`,
`tool_not_implemented`. -/
theorem C2_amended_tool_allowed_characterization :
    ∀ (lane_ok : Bool) (reg : List (String × ToolInfo))
      (lt : List (String × List String)) (lane tool : String),
      (tool_allowed lane_ok reg lt lane tool = (true, none) ↔
        lane_ok = true ∧ ∃ info, dictFind reg tool = some info ∧
          tool ∈ dictGetD lt lane [] ∧ info.enabled ≠ some false ∧
          info.implementation_status = some "implemented") ∧
      (lane_ok = false →
        tool_allowed lane_ok reg lt lane tool = (false, some "lane_not_authorized")) ∧
      (lane_ok = true → dictFind reg tool = none →
        tool_allowed lane_ok reg lt lane tool = (false, some "tool_not_registered")) ∧
      (∀ info, lane_ok = true → dictFind reg tool = some info →
        tool ∉ dictGetD lt lane [] →
        tool_allowed lane_ok reg lt lane tool = (false, some "tool_not_allowed_in_lane")) ∧
      (∀ info, lane_ok = true → dictFind reg tool = some info →
        tool ∈ dictGetD lt lane [] → info.enabled = some false →
        tool_allowed lane_ok reg lt lane tool = (false, some "tool_disabled")) ∧
      (∀ info, lane_ok = true → dictFind reg tool = some info →
        tool ∈ dictGetD lt lane [] → info.enabled ≠ some false →
        info.implementation_status ≠ some "implemented" →
        tool_allowed lane_ok reg lt lane tool = (false, some "tool_not_implemented")) := by
  intro lane_ok reg lt lane tool
  cases lane_ok with
  | false => simp [tool_allowed]
  | true =>
    rcases hfind : dictFind reg tool with _ | info
    · simp [tool_allowed, dictContains, dictGetD, hfind]
    · by_cases hmem : tool ∈ (dictFind lt lane).getD []
      · rcases hen : info.enabled with _ | b
        · by_cases himpl : info.implementation_status = some "implemented"
          · simp [tool_allowed, dictContains, dictGetD, hfind, hmem, hen, himpl]
          · simp [tool_allowed, dictContains, dictGetD, hfind, hmem, hen, himpl]
        · cases b with
          | false => simp [tool_allowed, dictContains, dictGetD, hfind, hmem, hen]
          | true =>
            by_cases himpl : info.implementation_status = some "implemented"
            · simp [tool_allowed, dictContains, dictGetD, hfind, hmem, hen, himpl]
            · simp [tool_allowed, dictContains, dictGetD, hfind, hmem, hen, himpl]
      · simp [tool_allowed, dictContains, dictGetD, hfind, hmem]

/-- Witness for the amended C2 at a concrete input: a registered,
lane-allowed tool that is explicitly disabled is denied with reason exactly
`tool_disabled`. -/
theorem C2_witness :
    tool_allowed true [("summarize", ⟨some false, some "implemented"⟩)]
        [("LANE_DRAFT", ["summarize"])] "LANE_DRAFT" "summarize" =
      (false, some "tool_disabled") :=
  (C2_amended_tool_allowed_characterization true
      [("summarize", ⟨some false, some "implemented"⟩)]
      [("LANE_DRAFT", ["summarize"])] "LANE_DRAFT" "summarize").2.2.2.2.1
    ⟨some false, some "implemented"⟩ rfl (by decide) (by decide) rfl

/-- **C1, counterexample**.  With two expected files whose digests both
disagree with the actual digests, the comparison step raises on the first
mismatching file only: the error names `audit_ledger.jsonl` alone, while
the complete set of offending files is
`[audit_ledger.jsonl, case_snapshot.json]`.  The claimed enumeration of all
offending files therefore does not happen. -/
theorem C1_counterexample :
    golden_hash_compare [("audit_ledger.jsonl", "aa"), ("case_snapshot.json", "bb")]
        (fun _ => "cc") = .error ("audit_ledger.jsonl", "aa", "cc") ∧
    golden_mismatch_files [("audit_ledger.jsonl", "aa"), ("case_snapshot.json", "bb")]
        (fun _ => "cc") = ["audit_ledger.jsonl", "case_snapshot.json"] := by
  constructor
  · rfl
  · rfl

/-- **C1, amended**.  When comparison is not suppressed and the file sets
agree, the per-file hash comparison fails iff some actual digest differs
case-insensitively from its expected digest, and the fatal `GoldenMismatch`
names exactly the *first* mismatching file in manifest order (with its
expected and actual hashes) — the loop aborts there instead of enumerating
the remaining offending files. -/
theorem C1_amended_first_mismatch_only :
    ∀ (expected : List (String × String)) (actualHash : String → String),
      (golden_hash_compare expected actualHash = .ok () ↔
        golden_mismatch_files expected actualHash = []) ∧
      (∀ rel expHash actual,
        golden_hash_compare expected actualHash = .error (rel, expHash, actual) →
        actual = actualHash rel ∧ (rel, expHash) ∈ expected ∧
        pyLower (actualHash rel) ≠ pyLower expHash ∧
        (golden_mismatch_files expected actualHash).head? = some rel) := by
  intro expected actualHash
  induction expected with
  | nil =>
    constructor
    · simp [golden_hash_compare, golden_mismatch_files]
    · intro rel expHash actual h
      simp [golden_hash_compare] at h
  | cons p rest ih =>
    obtain ⟨r, e⟩ := p
    by_cases hmis : pyLower (actualHash r) ≠ pyLower e
    · constructor
      · simp [golden_hash_compare, golden_mismatch_files, hmis]
      · intro rel expHash actual h
        simp only [golden_hash_compare, if_pos hmis] at h
        obtain ⟨h1, h2, h3⟩ : r = rel ∧ e = expHash ∧ actualHash r = actual := by
          simpa using h
        subst h1; subst h2; subst h3
        simp [golden_mismatch_files, hmis, hmis.symm]
    · rw [not_not] at hmis
      constructor
      · rw [show golden_hash_compare ((r, e) :: rest) actualHash =
            golden_hash_compare rest actualHash from by
              simp [golden_hash_compare, hmis]]
        rw [ih.1]
        simp [golden_mismatch_files, hmis]
      · intro rel expHash actual h
        rw [show golden_hash_compare ((r, e) :: rest) actualHash =
            golden_hash_compare rest actualHash from by
              simp [golden_hash_compare, hmis]] at h
        obtain ⟨ha, hb, hc, hd⟩ := ih.2 rel expHash actual h
        refine ⟨ha, List.mem_cons_of_mem _ hb, hc, ?_⟩
        simpa [golden_mismatch_files, hmis] using hd

/-- Witness for the amended C1 at a concrete input: with digests equal up to
case, the comparison succeeds and the mismatch set is empty. -/
theorem C1_witness :
    golden_mismatch_files [("export_bundle.json", "ab12")] (fun _ => "AB12") = [] :=
  (C1_amended_first_mismatch_only [("export_bundle.json", "ab12")] (fun _ => "AB12")).1.mp
    (by rfl)

/-- **C7, counterexample**.  With expected manifest `{a.json: h1}` and an
output directory containing only `b.json`, both `missing = [a.json]` and
`extra = [b.json]` are non-empty, yet `assert_no_extra_or_missing_files`
raises only the missing list; the extra list is not reported.  The claim's
"both reported when both are non-empty" does not hold. -/
theorem C7_counterexample :
    fileset_diff [("a.json", "h1")] ["b.json"] = (["a.json"], ["b.json"]) ∧
    assert_no_extra_or_missing_files [("a.json", "h1")] ["b.json"] =
      .error (.missingFiles ["a.json"]) := by
  constructor
  · rfl
  · rfl

/-- **C7, amended**.  The file-set diff computes the two explicit lists
(every expected path absent from disk, every on-disk file absent from the
manifest); the check passes iff both are empty — any non-empty result is a
hard failure — but when both are non-empty only the missing list is
reported (missing takes precedence); the extra list is reported only when
nothing is missing. -/
theorem C7_amended_fileset_reporting :
    ∀ (expected : List (String × String)) (out_files : List String),
      (assert_no_extra_or_missing_files expected out_files = .ok () ↔
        (fileset_diff expected out_files).1 = [] ∧
        (fileset_diff expected out_files).2 = []) ∧
      ((fileset_diff expected out_files).1 ≠ [] →
        assert_no_extra_or_missing_files expected out_files =
          .error (.missingFiles (fileset_diff expected out_files).1)) ∧
      ((fileset_diff expected out_files).1 = [] →
        (fileset_diff expected out_files).2 ≠ [] →
        assert_no_extra_or_missing_files expected out_files =
          .error (.extraFiles (fileset_diff expected out_files).2)) := by
  intro expected out_files
  unfold assert_no_extra_or_missing_files
  by_cases h1 : (fileset_diff expected out_files).1 = []
  · by_cases h2 : (fileset_diff expected out_files).2 = []
    · simp [h1, h2]
    · simp [h1, h2]
  · simp [h1]

/-- Witness for the amended C7 at a concrete input: matching file sets pass
the check. -/
theorem C7_witness :
    assert_no_extra_or_missing_files [("a.json", "h1")] ["a.json"] = .ok () :=
  (C7_amended_fileset_reporting [("a.json", "h1")] ["a.json"]).1.mpr (by constructor <;> rfl)

/-- **C9, counterexample**.  Under `--freeze` together with
`--strict_missing`, a vector whose computed `missing_artifacts` is
non-empty is failed by the strict-missing branch *before* the freeze write
is reached: the loop body does not write the expected file, refuting the
claim that freeze (over)writes it unconditionally. -/
theorem C9_counterexample :
    process_vector true true
        ⟨"vector_basic.json",
         ⟨"replay_equivalence_v1", "vector_basic", [], ["lanes.yaml"]⟩, none⟩ =
      .failed (.missingArtifacts ["lanes.yaml"]) ∧
    ∀ written, process_vector true true
        ⟨"vector_basic.json",
         ⟨"replay_equivalence_v1", "vector_basic", [], ["lanes.yaml"]⟩, none⟩ ≠
      .froze written := by
  constructor
  · rfl
  · intro written h
    simp [process_vector] at h

/-- **C9, amended**.  Under `--freeze`, for every vector *not* caught by the
strict-missing escalation (i.e. whenever `--strict_missing` is off or the
vector's computed `missing_artifacts` is empty), the loop unconditionally
(over)writes that vector's paired expected file from the computed
fingerprint document and performs no comparison; when `--strict_missing` is
set and `missing_artifacts` is non-empty, the vector is failed before the
freeze write. -/
theorem C9_amended_freeze_writes_unless_strict_missing :
    ∀ (strict_missing : Bool) (v : VectorCase),
      (¬ (strict_missing = true ∧ v.computed.missing_artifacts ≠ []) →
        process_vector true strict_missing v = .froze v.computed) ∧
      (strict_missing = true → v.computed.missing_artifacts ≠ [] →
        process_vector true strict_missing v =
          .failed (.missingArtifacts v.computed.missing_artifacts)) := by
  intro strict_missing v
  constructor
  · intro h
    simp only [process_vector]
    rw [if_neg (by simpa using h)]
    simp
  · intro h1 h2
    simp only [process_vector]
    rw [if_pos ⟨by simp [h1], h2⟩]

/-- Witness for the amended C9 at a concrete input: with `--strict_missing`
off, freeze writes the computed fingerprint document even though an
artifact is missing. -/
theorem C9_witness :
    process_vector true false
        ⟨"vector_basic.json",
         ⟨"replay_equivalence_v1", "vector_basic", [], ["lanes.yaml"]⟩, none⟩ =
      .froze ⟨"replay_equivalence_v1", "vector_basic", [], ["lanes.yaml"]⟩ :=
  (C9_amended_freeze_writes_unless_strict_missing false
      ⟨"vector_basic.json",
       ⟨"replay_equivalence_v1", "vector_basic", [], ["lanes.yaml"]⟩, none⟩).1
    (by simp)

/-- **C8**.  In default (non-freeze) mode the replay checker evaluates every
discovered vector: the failure list is exactly the list of per-vector
failures over *all* vectors (no short-circuit on the first failing vector),
the exit status is `0` iff some vector was discovered and none failed, `3`
when no vectors were found, and `10` when one or more vectors failed —
distinct non-zero codes for the two failure kinds. -/
theorem C8_replay_aggregates_all_failures :
    ∀ (strict_missing : Bool) (vectors : List VectorCase),
      replay_failures false strict_missing vectors =
        vectors.filterMap (fun v =>
          match process_vector false strict_missing v with
          | .failed f => some (v.name, f)
          | _ => none) ∧
      (replay_exit false strict_missing vectors = 0 ↔
        vectors ≠ [] ∧ ∀ v ∈ vectors, ∀ f : VectorFailure,
          process_vector false strict_missing v ≠ .failed f) ∧
      (vectors = [] → replay_exit false strict_missing vectors = 3) ∧
      ((∃ v ∈ vectors, ∃ f : VectorFailure,
          process_vector false strict_missing v = .failed f) →
        replay_exit false strict_missing vectors = 10) := by
  intro strict_missing vectors
  have hfail : replay_failures false strict_missing vectors =
      vectors.filterMap (fun v =>
        match process_vector false strict_missing v with
        | .failed f => some (v.name, f)
        | _ => none) := by
    induction vectors with
    | nil => rfl
    | cons v rest ih =>
      rw [List.filterMap_cons]
      rcases hv : process_vector false strict_missing v with f | w | _
      · simp only [replay_failures, hv, ih]
      · simp only [replay_failures, hv, ih]
      · simp only [replay_failures, hv, ih]
  have hempty : replay_failures false strict_missing vectors = [] ↔
      ∀ v ∈ vectors, ∀ f : VectorFailure,
        process_vector false strict_missing v ≠ .failed f := by
    rw [hfail, List.filterMap_eq_nil_iff]
    constructor
    · intro h v hv f hf
      have := h v hv
      rw [hf] at this
      simp at this
    · intro h v hv
      rcases hv2 : process_vector false strict_missing v with f | w | _
      · exact absurd hv2 (h v hv f)
      · rfl
      · rfl
  refine ⟨hfail, ?_, ?_, ?_⟩
  · constructor
    · intro h
      unfold replay_exit at h
      split_ifs at h with h1 h2
      · exact ⟨h1, hempty.mp (by simpa using h2)⟩
    · rintro ⟨h1, h2⟩
      unfold replay_exit
      rw [if_neg h1, if_neg (by simpa using hempty.mpr h2)]
  · intro h
    unfold replay_exit
    rw [if_pos h]
  · rintro ⟨v, hv, f, hf⟩
    unfold replay_exit
    have hne : replay_failures false strict_missing vectors ≠ [] := by
      intro hnil
      exact hempty.mp hnil v hv f hf
    rw [if_neg (by rintro rfl; simp at hv), if_pos hne]

/-- Witness for C8 at concrete inputs: one passing and one failing vector —
both evaluated, the single failure aggregated, exit code `10`; and for an
empty vector list the exit code is `3`. -/
theorem C8_witness :
    replay_failures false false
        [⟨"v1.json", ⟨"replay_equivalence_v1", "v1", [], []⟩,
          some ⟨"replay_equivalence_v1", "v1", [], []⟩⟩,
         ⟨"v2.json", ⟨"replay_equivalence_v1", "v2", [], []⟩, none⟩] =
      [("v2.json", .expectedFileMissing)] ∧
    replay_exit false false [] = 3 :=
  ⟨by rw [(C8_replay_aggregates_all_failures false
      [⟨"v1.json", ⟨"replay_equivalence_v1", "v1", [], []⟩,
        some ⟨"replay_equivalence_v1", "v1", [], []⟩⟩,
       ⟨"v2.json", ⟨"replay_equivalence_v1", "v2", [], []⟩, none⟩]).1]; rfl,
   (C8_replay_aggregates_all_failures false []).2.2.1 rfl⟩

/-! ## Order facts for `strLe` and dictionary lookup lemmas -/

instance : IsTotal String strLe := ⟨fun a b => le_total a.data b.data⟩

instance : IsTrans String strLe := ⟨fun _ _ _ h₁ h₂ => le_trans h₁ h₂⟩

instance : IsAntisymm String strLe := ⟨fun _ _ h₁ h₂ => String.ext (le_antisymm h₁ h₂)⟩

theorem dictFind_cons_self {α : Type} (k : String) (v : α) (rest : List (String × α)) :
    dictFind ((k, v) :: rest) k = some v := by
  simp [dictFind, List.find?_cons_of_pos]

theorem dictFind_cons_ne {α : Type} (k k' : String) (v : α) (rest : List (String × α))
    (h : k ≠ k') : dictFind ((k, v) :: rest) k' = dictFind rest k' := by
  simp only [dictFind]
  rw [List.find?_cons_of_neg]
  simpa using h

theorem dictFind_eq_none_iff {α : Type} (m : List (String × α)) (k : String) :
    dictFind m k = none ↔ k ∉ m.map Prod.fst := by
  induction m with
  | nil => simp [dictFind]
  | cons entry rest ih =>
    obtain ⟨ek, ev⟩ := entry
    by_cases heq : ek = k
    · subst heq
      rw [dictFind_cons_self]
      simp
    · rw [dictFind_cons_ne _ _ _ _ heq]
      rw [ih]
      simp [Ne.symm heq]

theorem dictFind_eq_some_iff {α : Type} (m : List (String × α)) (k : String) (v : α)
    (hnd : (m.map Prod.fst).Nodup) : dictFind m k = some v ↔ (k, v) ∈ m := by
  induction m with
  | nil => simp [dictFind]
  | cons entry rest ih =>
    obtain ⟨ek, ev⟩ := entry
    simp only [List.map_cons, List.nodup_cons] at hnd
    by_cases heq : ek = k
    · subst heq
      rw [dictFind_cons_self]
      constructor
      · rintro h
        simp only [Option.some.injEq] at h
        subst h
        exact List.mem_cons_self _ _
      · intro h
        rcases List.mem_cons.mp h with h | h
        · simp only [Prod.mk.injEq] at h
          rw [h.2]
        · exact absurd (List.mem_map.mpr ⟨(ek, v), h, rfl⟩) hnd.1
    · rw [dictFind_cons_ne _ _ _ _ heq]
      rw [ih hnd.2]
      constructor
      · exact fun h => List.mem_cons_of_mem _ h
      · intro h
        rcases List.mem_cons.mp h with h | h
        · exact absurd (congrArg Prod.fst h).symm heq
        · exact h

theorem dictFind_perm {α : Type} (m m' : List (String × α)) (k : String)
    (hperm : m'.Perm m) (hnd : (m.map Prod.fst).Nodup) :
    dictFind m' k = dictFind m k := by
  have hnd' : (m'.map Prod.fst).Nodup := ((hperm.map Prod.fst).nodup_iff).mpr hnd
  rcases h : dictFind m k with _ | v
  · rw [dictFind_eq_none_iff] at h ⊢
    intro hc
    exact h ((hperm.map Prod.fst).mem_iff.mp hc)
  · rw [dictFind_eq_some_iff _ _ _ hnd] at h
    rw [dictFind_eq_some_iff _ _ _ hnd']
    exact hperm.mem_iff.mpr h

/-! ## Manifest write/load lemmas (`canonical.py`) -/

theorem filterMap_lookup_congr {α : Type} (m m' : List (String × α)) (l : List String)
    (h : ∀ k ∈ l, dictFind m k = dictFind m' k) :
    l.filterMap (fun k => (dictFind m k).map (fun v => (k, v))) =
      l.filterMap (fun k => (dictFind m' k).map (fun v => (k, v))) := by
  induction l with
  | nil => rfl
  | cons k rest ih =>
    rw [List.filterMap_cons, List.filterMap_cons,
      h k (List.mem_cons_self _ _), ih (fun k' hk' => h k' (List.mem_cons_of_mem _ hk'))]

theorem keys_filterMap_lookup {α : Type} (m : List (String × α)) :
    ∀ (l : List String), (∀ k ∈ l, k ∈ m.map Prod.fst) →
      (l.filterMap (fun k => (dictFind m k).map (fun v => (k, v)))).map Prod.fst = l := by
  intro l
  induction l with
  | nil => intro _; rfl
  | cons k rest ih =>
    intro h
    have hk : k ∈ m.map Prod.fst := h k (List.mem_cons_self _ _)
    rcases hfind : dictFind m k with _ | v
    · exact absurd ((dictFind_eq_none_iff m k).mp hfind) (by simpa using hk)
    · rw [List.filterMap_cons, hfind]
      simp only [Option.map_some']
      rw [List.map_cons, ih (fun k' hk' => h k' (List.mem_cons_of_mem _ hk'))]

theorem keys_write_manifest_ordered (m : List (String × String))
    (h : ∀ k ∈ sortedKeys m, k ∈ m.map Prod.fst) :
    (write_manifest_ordered m).map Prod.fst = sortedKeys m :=
  keys_filterMap_lookup m (sortedKeys m) h

theorem filterMap_lookup_self :
    ∀ (l : List (String × String)), (l.map Prod.fst).Nodup →
      (l.map Prod.fst).filterMap (fun k => (dictFind l k).map (fun v => (k, v))) = l := by
  intro l
  induction l with
  | nil => intro _; rfl
  | cons p rest ih =>
    intro hnd
    obtain ⟨k, v⟩ := p
    simp only [List.map_cons, List.nodup_cons] at hnd
    rw [List.map_cons, List.filterMap_cons, dictFind_cons_self]
    simp only [Option.map_some']
    rw [filterMap_lookup_congr ((k, v) :: rest) rest _ (fun k' hk' => by
      apply dictFind_cons_ne
      intro hkk
      subst hkk
      exact hnd.1 hk')]
    rw [ih hnd.2]

theorem write_manifest_ordered_sorted_fixpoint
    (l : List (String × String))
    (hsort : (l.map Prod.fst).Sorted strLe) (hnd : (l.map Prod.fst).Nodup) :
    write_manifest_ordered l = l := by
  unfold write_manifest_ordered sortedKeys
  rw [List.Sorted.insertionSort_eq hsort]
  exact filterMap_lookup_self l hnd

theorem mem_write_manifest_ordered (m : List (String × String)) (p : String × String)
    (h : p ∈ write_manifest_ordered m) : p ∈ m := by
  unfold write_manifest_ordered at h
  rcases List.mem_filterMap.mp h with ⟨k, _, hp⟩
  rcases hfind : dictFind m k with _ | v
  · rw [hfind] at hp
    simp at hp
  · rw [hfind] at hp
    simp only [Option.map_some', Option.some.injEq] at hp
    subst hp
    unfold dictFind at hfind
    rcases hf : m.find? (fun q => q.1 == k) with _ | q
    · rw [hf] at hfind; simp at hfind
    · rw [hf] at hfind
      simp only [Option.map_some', Option.some.injEq] at hfind
      have hq1 : q.1 = k := by simpa using List.find?_some hf
      have hqm := List.mem_of_find?_eq_some hf
      have hqe : q = (k, v) := by
        rcases q with ⟨qk, qv⟩
        simp only at hq1 hfind
        simp [hq1, hfind]
      rw [← hqe]
      exact hqm

theorem sortedKeys_perm_eq (m m' : List (String × String))
    (hperm : m'.Perm m) : sortedKeys m' = sortedKeys m := by
  unfold sortedKeys
  refine List.eq_of_perm_of_sorted ?_ (List.sorted_insertionSort _ _) (List.sorted_insertionSort _ _)
  exact ((List.perm_insertionSort _ _).trans (hperm.map Prod.fst)).trans
    (List.perm_insertionSort _ _).symm

theorem write_manifest_ordered_perm (m m' : List (String × String))
    (hperm : m'.Perm m) (hnd : (m.map Prod.fst).Nodup) :
    write_manifest_ordered m' = write_manifest_ordered m := by
  unfold write_manifest_ordered
  rw [sortedKeys_perm_eq m m' hperm]
  exact filterMap_lookup_congr m' m _ (fun k _ => dictFind_perm m m' k hperm hnd)

/-- **C6, counterexample**.  For the one-entry manifest
`{"a.json": "ABC"}` (an uppercase digest value), writing, loading (which
lowercases the value to `"abc"`), and writing again produces different
bytes than the first write: the claim's "for every manifest mapping ...
byte-identical" fails on values that are not already lowercase. -/
theorem C6_counterexample :
    write_manifest_bytes (read_manifest (write_manifest_ordered [("a.json", "ABC")])) ≠
      write_manifest_bytes [("a.json", "ABC")] := by
  decide

/-- **C6, amended**.  For every manifest mapping with unique keys whose
digest values are already lowercase (as all SHA-256 hex digests written by
the pipeline are), write → load → write yields byte-identical file
contents; and independently of that restriction, the written bytes do not
depend on the key order of the original mapping.  (Loading lowercases all
digest values while writing does not, so a value that is not lowercase
breaks the byte-identity, as the counterexample shows.) -/
theorem C6_amended_manifest_roundtrip :
    ∀ (m m' : List (String × String)),
      ((m.map Prod.fst).Nodup → (∀ p ∈ m, pyLower p.2 = p.2) →
        write_manifest_bytes (read_manifest (write_manifest_ordered m)) =
          write_manifest_bytes m) ∧
      ((m.map Prod.fst).Nodup → m'.Perm m →
        write_manifest_bytes m' = write_manifest_bytes m) := by
  intro m m'
  constructor
  · intro hnd hlc
    have hread : read_manifest (write_manifest_ordered m) = write_manifest_ordered m := by
      unfold read_manifest
      have : ∀ p ∈ write_manifest_ordered m, (p.1, pyLower p.2) = p := by
        intro p hp
        have := hlc p (mem_write_manifest_ordered m p hp)
        rw [this]
      calc (write_manifest_ordered m).map (fun p => (p.1, pyLower p.2))
          = (write_manifest_ordered m).map id := List.map_congr_left this
        _ = write_manifest_ordered m := List.map_id _
    unfold write_manifest_bytes
    rw [hread]
    congr 1
    have hkeys : (write_manifest_ordered m).map Prod.fst = sortedKeys m :=
      keys_write_manifest_ordered m (fun k hk => by
        unfold sortedKeys at hk
        exact (List.mem_insertionSort _).mp hk)
    apply write_manifest_ordered_sorted_fixpoint
    · rw [hkeys]
      exact List.sorted_insertionSort _ _
    · rw [hkeys]
      unfold sortedKeys
      exact ((List.perm_insertionSort _ _).nodup_iff).mpr hnd
  · intro hnd hperm
    unfold write_manifest_bytes
    rw [write_manifest_ordered_perm m m' hperm hnd]

/-- Witness for the amended C6 at a concrete input: a two-entry manifest
with lowercase values, given in reverse key order, writes, reloads and
rewrites to identical bytes, and a key-permuted copy writes the same
bytes. -/
theorem C6_witness :
    write_manifest_bytes (read_manifest (write_manifest_ordered
        [("b.json", "2b"), ("a.json", "1a")])) =
      write_manifest_bytes [("b.json", "2b"), ("a.json", "1a")] ∧
    write_manifest_bytes [("a.json", "1a"), ("b.json", "2b")] =
      write_manifest_bytes [("b.json", "2b"), ("a.json", "1a")] :=
  ⟨(C6_amended_manifest_roundtrip [("b.json", "2b"), ("a.json", "1a")] []).1
      (by decide) (by decide),
   (C6_amended_manifest_roundtrip [("b.json", "2b"), ("a.json", "1a")]
      [("a.json", "1a"), ("b.json", "2b")]).2 (by decide) (by decide)⟩

/-! ## Character-level lemmas for the canonical encodings -/

theorem digitChar_ne_newline (m : Nat) : Nat.digitChar m ≠ '\n' := by
  by_cases h : m < 16
  · exact (by decide : ∀ k, k < 16 → Nat.digitChar k ≠ '\n') m h
  · have hstar : Nat.digitChar m = '*' := by
      unfold Nat.digitChar
      repeat rw [if_neg (by omega)]
    rw [hstar]
    decide

theorem natDigits_props : ∀ n : Nat, natDigits n ≠ [] ∧ ∀ c ∈ natDigits n, c ≠ '\n' := by
  intro n
  induction n using Nat.strong_induction_on with
  | _ n ih =>
    rw [natDigits]
    split
    · refine ⟨by simp, ?_⟩
      intro c hc
      simp only [List.mem_singleton] at hc
      subst hc
      exact digitChar_ne_newline _
    · rename_i h
      have hlt : n / 10 < n := Nat.div_lt_self (by omega) (by omega)
      obtain ⟨_, ihnl⟩ := ih (n / 10) hlt
      refine ⟨by simp, ?_⟩
      intro c hc
      rcases List.mem_append.mp hc with h1 | h1
      · exact ihnl c h1
      · simp only [List.mem_singleton] at h1
        subst h1
        exact digitChar_ne_newline _

theorem intRepr_props (n : Int) :
    (intRepr n).data ≠ [] ∧ ∀ c ∈ (intRepr n).data, c ≠ '\n' := by
  unfold intRepr
  split
  · obtain ⟨hne, hnl⟩ := natDigits_props (-n).toNat
    rw [show ("-" ++ String.mk (natDigits (-n).toNat)).data =
      '-' :: natDigits (-n).toNat from String.data_append ..]
    refine ⟨by simp, ?_⟩
    intro c hc
    rcases List.mem_cons.mp hc with h1 | h1
    · subst h1; decide
    · exact hnl c h1
  · exact natDigits_props n.toNat

theorem jsonEscapeChar_props (c : Char) :
    jsonEscapeChar c ≠ [] ∧ ∀ c' ∈ jsonEscapeChar c, c' ≠ '\n' := by
  unfold jsonEscapeChar escHex
  split_ifs with h1 h2 h3 h4 h5 h6 h7 h8
  · exact ⟨by simp, by decide⟩
  · exact ⟨by simp, by decide⟩
  · exact ⟨by simp, by decide⟩
  · exact ⟨by simp, by decide⟩
  · exact ⟨by simp, by decide⟩
  · exact ⟨by simp, by decide⟩
  · exact ⟨by simp, by decide⟩
  · refine ⟨by simp, ?_⟩
    intro c' hc'
    simp only [List.mem_cons, List.not_mem_nil, or_false] at hc'
    rcases hc' with h | h | h | h | h | h
    · subst h; decide
    · subst h; decide
    · subst h; decide
    · subst h; decide
    · subst h; exact digitChar_ne_newline _
    · subst h; exact digitChar_ne_newline _
  · refine ⟨by simp, ?_⟩
    intro c' hc'
    simp only [List.mem_singleton] at hc'
    subst hc'
    intro heq
    subst heq
    exact h8 (by decide)

theorem foldr_escape_no_newline :
    ∀ (l : List Char) (acc : List Char), (∀ c ∈ acc, c ≠ '\n') →
      ∀ c ∈ l.foldr (fun c a => jsonEscapeChar c ++ a) acc, c ≠ '\n' := by
  intro l
  induction l with
  | nil => intro acc hacc; exact hacc
  | cons d rest ih =>
    intro acc hacc c hc
    simp only [List.foldr_cons] at hc
    rcases List.mem_append.mp hc with h1 | h1
    · exact (jsonEscapeChar_props d).2 c h1
    · exact ih acc hacc c h1

theorem jsonQuote_props (s : String) :
    (jsonQuote s).data ≠ [] ∧ ∀ c ∈ (jsonQuote s).data, c ≠ '\n' := by
  unfold jsonQuote
  refine ⟨by simp, ?_⟩
  intro c hc
  rcases List.mem_cons.mp hc with h1 | h1
  · subst h1; decide
  · exact foldr_escape_no_newline s.data ['"']
      (by intro c' hc'; simp only [List.mem_singleton] at hc'; subst hc'; decide) c h1

theorem serializeArr_no_newline :
    ∀ (l : List Json), (∀ x ∈ l, ∀ c ∈ (serializeJson x).data, c ≠ '\n') →
      ∀ c ∈ (serializeArr l).data, c ≠ '\n' := by
  intro l
  induction l with
  | nil =>
    intro _ c hc
    rw [serializeArr] at hc
    simp at hc
  | cons x xs ih =>
    cases xs with
    | nil =>
      intro h c hc
      rw [serializeArr] at hc
      exact h x (List.mem_cons_self _ _) c hc
    | cons y ys =>
      intro h c hc
      rw [serializeArr] at hc
      rw [String.data_append, String.data_append] at hc
      rcases List.mem_append.mp hc with hc1 | hc1
      · rcases List.mem_append.mp hc1 with hc2 | hc2
        · exact h x (List.mem_cons_self _ _) c hc2
        · simp only [List.mem_singleton] at hc2
          subst hc2
          decide
      · exact ih (fun z hz => h z (List.mem_cons_of_mem _ hz)) c hc1

theorem serializePairs_no_newline :
    ∀ (l : List (String × Json)),
      (∀ p ∈ l, ∀ c ∈ (serializeJson p.2).data, c ≠ '\n') →
      ∀ c ∈ (serializePairs l).data, c ≠ '\n' := by
  intro l
  induction l with
  | nil =>
    intro _ c hc
    rw [serializePairs] at hc
    simp at hc
  | cons p ps ih =>
    obtain ⟨k, v⟩ := p
    cases ps with
    | nil =>
      intro h c hc
      rw [serializePairs] at hc
      rw [String.data_append, String.data_append] at hc
      rcases List.mem_append.mp hc with hc1 | hc1
      · rcases List.mem_append.mp hc1 with hc2 | hc2
        · exact (jsonQuote_props k).2 c hc2
        · simp only [List.mem_singleton] at hc2
          subst hc2
          decide
      · exact h (k, v) (List.mem_cons_self _ _) c hc1
    | cons q qs =>
      intro h c hc
      rw [serializePairs] at hc
      rw [String.data_append, String.data_append, String.data_append,
        String.data_append] at hc
      rcases List.mem_append.mp hc with hc1 | hc1
      · rcases List.mem_append.mp hc1 with hc2 | hc2
        · rcases List.mem_append.mp hc2 with hc3 | hc3
          · rcases List.mem_append.mp hc3 with hc4 | hc4
            · exact (jsonQuote_props k).2 c hc4
            · simp only [List.mem_singleton] at hc4
              subst hc4
              decide
          · exact h (k, v) (List.mem_cons_self _ _) c hc3
        · simp only [List.mem_singleton] at hc2
          subst hc2
          decide
      · exact ih (fun z hz => h z (List.mem_cons_of_mem _ hz)) c hc1

theorem serializeJson_props :
    ∀ (j : Json), (serializeJson j).data ≠ [] ∧ ∀ c ∈ (serializeJson j).data, c ≠ '\n' := by
  intro j
  generalize hn : sizeOf j = n
  induction n using Nat.strong_induction_on generalizing j with
  | _ n ih =>
    subst hn
    cases j with
    | null =>
      rw [serializeJson]
      exact ⟨by decide, by decide⟩
    | boolean b =>
      cases b with
      | true => rw [serializeJson]; exact ⟨by decide, by decide⟩
      | false => rw [serializeJson]; exact ⟨by decide, by decide⟩
    | num m =>
      rw [serializeJson]
      exact intRepr_props m
    | str s =>
      rw [serializeJson]
      exact jsonQuote_props s
    | arr xs =>
      rw [serializeJson]
      rw [String.data_append, String.data_append]
      constructor
      · simp
      · intro c hc
        rcases List.mem_append.mp hc with hc1 | hc1
        · rcases List.mem_append.mp hc1 with hc2 | hc2
          · simp only [List.mem_singleton] at hc2; subst hc2; decide
          · refine serializeArr_no_newline xs ?_ c hc2
            intro x hx
            have hlt : sizeOf x < sizeOf (Json.arr xs) := by
              have := List.sizeOf_lt_of_mem hx
              simp only [Json.arr.sizeOf_spec]
              omega
            exact (ih (sizeOf x) hlt x rfl).2
        · simp only [List.mem_singleton] at hc1; subst hc1; decide
    | obj kvs =>
      rw [serializeJson]
      rw [String.data_append, String.data_append]
      constructor
      · simp
      · intro c hc
        rcases List.mem_append.mp hc with hc1 | hc1
        · rcases List.mem_append.mp hc1 with hc2 | hc2
          · simp only [List.mem_singleton] at hc2; subst hc2; decide
          · refine serializePairs_no_newline (sortPairs kvs) ?_ c hc2
            intro p hp
            have hpk : p ∈ kvs := by
              unfold sortPairs at hp
              exact (List.mem_insertionSort _).mp hp
            have hlt : sizeOf p.2 < sizeOf (Json.obj kvs) := by
              have h1 := List.sizeOf_lt_of_mem hpk
              obtain ⟨a, b⟩ := p
              simp only [Json.obj.sizeOf_spec]
              simp only [Prod.mk.sizeOf_spec] at h1
              omega
            exact (ih (sizeOf p.2) hlt p.2 rfl).2
        · simp only [List.mem_singleton] at hc1; subst hc1; decide

theorem joinNL_ends :
    ∀ (lines : List String), lines ≠ [] →
      ∃ pre last, lines.getLast? = some last ∧ (joinNL lines).data = pre ++ last.data := by
  intro lines
  induction lines with
  | nil => intro h; exact absurd rfl h
  | cons x xs ih =>
    cases xs with
    | nil =>
      intro _
      exact ⟨[], x, rfl, rfl⟩
    | cons y ys =>
      intro _
      obtain ⟨pre, last, hl, hd⟩ := ih (by simp)
      refine ⟨x.data ++ ['\n'] ++ pre, last, ?_, ?_⟩
      · rw [List.getLast?_cons_cons]
        exact hl
      · rw [joinNL, String.data_append, String.data_append, hd]
        simp

/-- **C10**.  `canonical_jsonl_bytes` ends with exactly one trailing
newline for every input sequence of documents (the final character is a
newline and the character before it, when one exists, is not); on the empty
sequence it returns the single newline character — one UTF-8 byte — so a
golden run whose capability-gateway fixture contains zero tool calls still
writes a one-byte, newline-only `tool_calls.jsonl`. -/
theorem C10_jsonl_single_trailing_newline :
    (∀ objs : List Json,
      ∃ cs : List Char, (canonical_jsonl_string objs).data = cs ++ ['\n'] ∧
        ∀ c, cs.getLast? = some c → c ≠ '\n') ∧
    canonical_jsonl_string [] = "\n" ∧
    ("\n" : String).utf8ByteSize = 1 ∧
    (∀ cap_mock : Json, tool_calls_of_fixture cap_mock = some [] →
      tool_calls_jsonl cap_mock = some "\n") := by
  refine ⟨?_, by rfl, by rfl, ?_⟩
  · intro objs
    refine ⟨(joinNL (objs.map serializeJson)).data, ?_, ?_⟩
    · unfold canonical_jsonl_string
      rw [String.data_append]
    · intro c hc
      cases objs with
      | nil => simp [joinNL] at hc
      | cons o os =>
        obtain ⟨pre, last, hl, hd⟩ := joinNL_ends ((o :: os).map serializeJson) (by simp)
        rw [hd] at hc
        obtain ⟨x, _, hxe⟩ := List.mem_map.mp (List.mem_of_getLast?_eq_some hl)
        obtain ⟨hne, hnl⟩ := serializeJson_props x
        rw [hxe] at hne hnl
        rw [List.getLast?_append_of_ne_nil pre (by simpa using hne)] at hc
        exact hnl c (List.mem_of_getLast?_eq_some hc)
  · intro cap_mock h
    unfold tool_calls_jsonl
    rw [h]
    rfl

/-- Witness for C10 at a concrete input: a capability-gateway fixture with
no `tool_calls` entry yields the one-newline `tool_calls.jsonl` content. -/
theorem C10_witness : tool_calls_jsonl (Json.obj []) = some "\n" :=
  C10_jsonl_single_trailing_newline.2.2.2 (Json.obj []) rfl
